import Mathlib

/-!
# OpenAlex MCP server — verification of the request/response adaptation layer

Shallow embedding of the TypeScript source of the `openalex-mcp` server:

* `src/utils.ts` — `buildQueryString`, `makeOpenAlexRequest` (URL assembly,
  User-Agent / Authorization resolution, axios error normalization);
* `src/tools/*.ts` — the per-tool handlers (`searchWorks` with its `view`
  discriminator and summary truncation, the pass-through search handlers,
  `getEntity`, `autocomplete`, `classifyText`, `getFilterableFields`);
* `src/index.ts` — the `CallToolRequestSchema` dispatcher (name switch,
  Unknown-tool default, and the single try/catch boundary).

JavaScript values appearing in argument mappings are modelled by `JSValue`
(`undefined`, `null`, booleans, integer numbers, strings); JSON payloads by
`Json`; thrown errors by `JsError`, distinguishing axios-originated errors
(which may or may not carry an HTTP response) from plain `Error`s.  The single
outbound HTTP call of an invocation is modelled by an oracle
`fetch : OutboundRequest → Except JsError Json` giving the upstream outcome
for the request the code builds.
-/

namespace OpenAlexMCP

/-- A JavaScript value as it can appear in a tool-call argument mapping.
Numbers are modelled as integers (the arguments used by this server are
pages, counts, seeds and strings; no fractional values arise). -/
inductive JSValue where
  | undef
  | null
  | bool (b : Bool)
  | num (n : Int)
  | str (s : String)
deriving DecidableEq, Repr

/-- JavaScript `String(value)` for the values of `JSValue`. -/
def jsString : JSValue → String
  | .undef => "undefined"
  | .null => "null"
  | .bool b => if b then "true" else "false"
  | .num n => toString n
  | .str s => s

/-- JavaScript truthiness for the values of `JSValue`. -/
def jsTruthy : JSValue → Bool
  | .undef => false
  | .null => false
  | .bool b => b
  | .num n => n != 0
  | .str s => s != ""

/-- An argument mapping (a JavaScript object), as an insertion-ordered
association list: `Object.entries` enumerates in this order. -/
abbrev Args := List (String × JSValue)

/-- Property access `args[key]`: the first binding, `undefined` if absent. -/
def jsLookup : Args → String → JSValue
  | [], _ => .undef
  | (k, v) :: rest, key => if k = key then v else jsLookup rest key

/-- Property assignment `args[key] = v`: replace the value in place when the
key exists (keeping its position), append otherwise. -/
def setArg : Args → String → JSValue → Args
  | [], k, v => [(k, v)]
  | (k', v') :: rest, k, v =>
      if k' = k then (k', v) :: rest else (k', v') :: setArg rest k v

/-- A JSON document (the parsed body of an upstream response). -/
inductive Json where
  | null
  | bool (b : Bool)
  | num (n : Int)
  | str (s : String)
  | arr (items : List Json)
  | obj (fields : List (String × Json))

/-- First binding of `key` in an object field list. -/
def lookupField : List (String × Json) → String → Option Json
  | [], _ => none
  | (k, v) :: rest, key => if k = key then some v else lookupField rest key

/-- Property access `o[key]` on a JSON value: `none` when `o` is not an
object or lacks the key. -/
def jsonGet : Json → String → Option Json
  | .obj fields, key => lookupField fields key
  | _, _ => none

/-- Replace the value of `key` in place when present (keeping its position),
append otherwise — JavaScript property-assignment semantics. -/
def setField : List (String × Json) → String → Json → List (String × Json)
  | [], k, v => [(k, v)]
  | (k', v') :: rest, k, v =>
      if k' = k then (k', v) :: rest else (k', v') :: setField rest k v

/-- Property assignment on a JSON object (identity on non-objects). -/
def jsonSet : Json → String → Json → Json
  | .obj fields, key, v => .obj (setField fields key v)
  | j, _, _ => j

/-! ## JSON.stringify(x, null, 2)

A model of Node's pretty printer with two-space indentation, used by every
handler to serialize the payload into the text content block. -/

/-- Hexadecimal digit (upper case for `\u00XX` escapes, as Node emits). -/
def hexDigit (n : Nat) : Char :=
  if n < 10 then Char.ofNat (48 + n) else Char.ofNat (55 + n)

/-- JSON string-literal escaping of one character. -/
def jsonEscapeChar (c : Char) : String :=
  if c = '"' then "\\\""
  else if c = '\\' then "\\\\"
  else if c = '\n' then "\\n"
  else if c = '\t' then "\\t"
  else if c = '\r' then "\\r"
  else if c.toNat < 32 then
    "\\u00" ++ String.singleton (hexDigit (c.toNat / 16)) ++
      String.singleton (hexDigit (c.toNat % 16))
  else String.singleton c

/-- JSON string literal for `s`. -/
def jsonQuote (s : String) : String :=
  "\"" ++ String.join (s.data.map jsonEscapeChar) ++ "\""

/-- `n` copies of the two-space indentation unit. -/
def indentStr (n : Nat) : String := String.join (List.replicate n "  ")

mutual

/-- `JSON.stringify(j, null, 2)` at nesting depth `ind`. -/
def stringifyAt (j : Json) (ind : Nat) : String :=
  match j with
  | .null => "null"
  | .bool b => if b then "true" else "false"
  | .num n => toString n
  | .str s => jsonQuote s
  | .arr items =>
      match items with
      | [] => "[]"
      | _ =>
        "[\n" ++
          String.intercalate ",\n"
            ((stringifyItems items (ind + 1)).map (fun s => indentStr (ind + 1) ++ s)) ++
          "\n" ++ indentStr ind ++ "]"
  | .obj fields =>
      match fields with
      | [] => "\x7b\x7d"
      | _ =>
        "\x7b\n" ++
          String.intercalate ",\n"
            ((stringifyFields fields (ind + 1)).map (fun s => indentStr (ind + 1) ++ s)) ++
          "\n" ++ indentStr ind ++ "\x7d"

/-- Serialized array elements at depth `ind`. -/
def stringifyItems (items : List Json) (ind : Nat) : List String :=
  match items with
  | [] => []
  | j :: rest => stringifyAt j ind :: stringifyItems rest ind

/-- Serialized `"key": value` members at depth `ind`. -/
def stringifyFields (fields : List (String × Json)) (ind : Nat) : List String :=
  match fields with
  | [] => []
  | (k, v) :: rest => (jsonQuote k ++ ": " ++ stringifyAt v ind) :: stringifyFields rest ind

end

/-- `JSON.stringify(j, null, 2)`. -/
def jsonStringify (j : Json) : String := stringifyAt j 0

/-! ## Query Encoder (`buildQueryString`, src/utils.ts)

`URLSearchParams.toString()` serializes per `application/x-www-form-urlencoded`:
UTF-8 bytes, with `*`, `-`, `.`, `_` and alphanumerics verbatim, space as `+`,
every other byte percent-encoded. -/

/-- Bytes left verbatim by the `application/x-www-form-urlencoded` serializer:
`*`, `-`, `.`, `_`, digits and ASCII letters. -/
def isFormSafe (n : Nat) : Bool :=
  n = 42 || n = 45 || n = 46 || n = 95 ||
  (48 ≤ n && n ≤ 57) || (65 ≤ n && n ≤ 90) || (97 ≤ n && n ≤ 122)

/-- Serialization of one UTF-8 byte (given as a `Nat` below 256). -/
def formEncodeByte (n : Nat) : String :=
  if isFormSafe n then String.singleton (Char.ofNat n)
  else if n = 32 then "+"
  else "%" ++ String.singleton (hexDigit (n / 16)) ++ String.singleton (hexDigit (n % 16))

/-- The UTF-8 bytes of the code point `n` (standard UTF-8 encoding). -/
def utf8Bytes (n : Nat) : List Nat :=
  if n < 128 then [n]
  else if n < 2048 then [192 + n / 64, 128 + n % 64]
  else if n < 65536 then [224 + n / 4096, 128 + (n / 64) % 64, 128 + n % 64]
  else [240 + n / 262144, 128 + (n / 4096) % 64, 128 + (n / 64) % 64, 128 + n % 64]

/-- `application/x-www-form-urlencoded` serialization of a string, as
`URLSearchParams` applies to each appended key and value. -/
def formEncode (s : String) : String :=
  String.join (s.data.map (fun c => String.join ((utf8Bytes c.toNat).map formEncodeByte)))

/-- The pair list accumulated by `new URLSearchParams()` after the
`Object.entries(params).forEach` loop of `buildQueryString`: each entry whose
value is neither `undefined` nor `null` is appended, stringified, in order. -/
def searchParamsOf (params : Args) : List (String × String) :=
  params.foldl
    (fun sp kv =>
      if kv.2 = JSValue.undef ∨ kv.2 = JSValue.null then sp
      else sp ++ [(kv.1, jsString kv.2)])
    []

/-- `URLSearchParams.toString()`: the appended pairs serialized in order as
`key=value`, keys and values form-encoded, joined by `&`. -/
def serializePairs : List (String × String) → String
  | [] => ""
  | [kv] => formEncode kv.1 ++ "=" ++ formEncode kv.2
  | kv :: rest => formEncode kv.1 ++ "=" ++ formEncode kv.2 ++ "&" ++ serializePairs rest

/-- `buildQueryString` (src/utils.ts): build a `URLSearchParams`, append every
entry whose value is neither `undefined` nor `null`, and serialize. -/
def buildQueryString (params : Args) : String :=
  serializePairs (searchParamsOf params)

/-- The entries `buildQueryString` keeps: neither `undefined` nor `null`. -/
def keepParam : JSValue → Bool
  | .undef => false
  | .null => false
  | _ => true

/-! ## Credential & Identification Resolver and outbound request
(`makeOpenAlexRequest`, src/utils.ts) -/

/-- The process environment read by the adapter: `OPENALEX_DEFAULT_EMAIL` and
`OPENALEX_BEARER_TOKEN` (`none` models an unset variable). -/
structure Env where
  defaultEmail : Option String
  bearerToken : Option String

/-- `https://api.openalex.org`. -/
def OPENALEX_BASE_URL : String := "https://api.openalex.org"

/-- The fixed product identifier opening the User-Agent header. -/
def productIdentifier : String :=
  "OpenAlex-MCP-Server/1.0.0 (https://github.com/openalex-mcp-server)"

/-- The User-Agent value: the product identifier, then ` mailto:<email>` where
the email is `params.mailto` when truthy, else
`process.env.OPENALEX_DEFAULT_EMAIL || 'mcp-server@example.com'`. -/
def userAgent (params : Args) (env : Env) : String :=
  if jsTruthy (jsLookup params "mailto") then
    productIdentifier ++ " mailto:" ++ jsString (jsLookup params "mailto")
  else
    let defaultEmail :=
      match env.defaultEmail with
      | some e => if e = "" then "mcp-server@example.com" else e
      | none => "mcp-server@example.com"
    productIdentifier ++ " mailto:" ++ defaultEmail

/-- `params.bearer_token || process.env.OPENALEX_BEARER_TOKEN`, then the
truthiness guard around the Authorization assignment: `some token` exactly
when `if (bearerToken)` is entered. -/
def resolveBearer (params : Args) (env : Env) : Option String :=
  if jsTruthy (jsLookup params "bearer_token") then
    some (jsString (jsLookup params "bearer_token"))
  else
    match env.bearerToken with
    | some e => if e = "" then none else some e
    | none => none

/-- The header object built by `makeOpenAlexRequest`: `Accept`, `User-Agent`,
and `Authorization: Bearer <token>` when a bearer token resolves. -/
def buildHeaders (params : Args) (env : Env) : List (String × String) :=
  [("Accept", "application/json"), ("User-Agent", userAgent params env)] ++
    (match resolveBearer params env with
     | some token => [("Authorization", "Bearer " ++ token)]
     | none => [])

/-- First binding of a header name. -/
def lookupHeader : List (String × String) → String → Option String
  | [], _ => none
  | (k, v) :: rest, key => if k = key then some v else lookupHeader rest key

/-- The single GET request issued by `makeOpenAlexRequest`: URL
`base + endpoint + ('?' + query when the query string is nonempty)`,
the headers above, fixed 30-second timeout. -/
structure OutboundRequest where
  url : String
  headers : List (String × String)
  timeoutMs : Nat
deriving DecidableEq, Repr

/-- The outbound request `makeOpenAlexRequest endpoint params` assembles
before calling `axios.get`. -/
def buildOutboundRequest (endpoint : String) (params : Args) (env : Env) :
    OutboundRequest :=
  let queryString := buildQueryString params
  { url := OPENALEX_BASE_URL ++ endpoint ++
      (if queryString = "" then "" else "?" ++ queryString),
    headers := buildHeaders params env,
    timeoutMs := 30000 }

/-! ## Errors and the HTTP Request Adapter (`makeOpenAlexRequest`, src/utils.ts) -/

/-- The `status`/`statusText` of an HTTP error response attached to an axios
error (`error.response`). -/
structure AxiosResponse where
  status : Nat
  statusText : String
deriving DecidableEq, Repr

/-- A thrown JavaScript error: either an error raised by axios
(`axios.isAxiosError(error)` is true; `response` is absent for network-level
failures such as timeouts, connection refusals and DNS errors), or a plain
`Error` with a message. -/
inductive JsError where
  | axios (response : Option AxiosResponse) (message : String)
  | plain (message : String)
deriving DecidableEq, Repr

/-- `error.message`. -/
def JsError.message : JsError → String
  | .axios _ m => m
  | .plain m => m

/-- The catch block of `makeOpenAlexRequest`: an axios error is replaced by
`new Error("OpenAlex API error: <status> - <statusText || message>")`, where a
missing `error.response` makes `error.response?.status` interpolate as the
string `undefined` and `error.response?.statusText` fall back to the message;
any other error is rethrown unchanged. -/
def handleRequestError : JsError → JsError
  | .axios response msg =>
      .plain ("OpenAlex API error: " ++
        (match response with
         | some r => toString r.status
         | none => "undefined") ++ " - " ++
        (match response with
         | some r => if r.statusText = "" then msg else r.statusText
         | none => msg))
  | .plain m => .plain m

/-- `makeOpenAlexRequest endpoint params` (src/utils.ts): build the outbound
request, perform the single GET (modelled by the `fetch` oracle), return the
parsed body on success, and on failure rethrow through the catch block. -/
def makeOpenAlexRequest (endpoint : String) (params : Args) (env : Env)
    (fetch : OutboundRequest → Except JsError Json) : Except JsError Json :=
  match fetch (buildOutboundRequest endpoint params env) with
  | .ok data => .ok data
  | .error e => .error (handleRequestError e)

/-! ## Result envelopes and tool handlers (src/tools/*.ts) -/

/-- One `{type: "text", text: ...}` content block. -/
structure TextContent where
  type : String
  text : String
deriving DecidableEq, Repr

/-- The uniform result envelope `{content: [...], isError?: true}`; a missing
`isError` is modelled as `false`. -/
structure ResultEnvelope where
  content : List TextContent
  isError : Bool
deriving DecidableEq, Repr

/-- The success envelope every handler returns:
`{content: [{type: "text", text: JSON.stringify(payload, null, 2)}]}`. -/
def jsonTextResult (payload : Json) : ResultEnvelope :=
  { content := [{ type := "text", text := jsonStringify payload }], isError := false }

/-- The error envelope produced by the dispatcher catch block:
`{content: [{type: "text", text: "Error: " + message}], isError: true}`. -/
def errorResult (message : String) : ResultEnvelope :=
  { content := [{ type := "text", text := "Error: " ++ message }], isError := true }

/-- A pass-through search handler (`searchAuthors`, `searchSources`,
`searchInstitutions`, `searchTopics`, `searchPublishers`, `searchFunders`,
`autocomplete`): forward the raw argument mapping to the fixed endpoint and
wrap the serialized payload. -/
def passthroughTool (endpoint : String) (args : Args) (env : Env)
    (fetch : OutboundRequest → Except JsError Json) : Except JsError ResultEnvelope :=
  (makeOpenAlexRequest endpoint args env fetch).map jsonTextResult

/-- The `select` list forced by the summary view of `searchWorks`. -/
def summarySelect : String :=
  "id,doi,title,publication_year,type,cited_by_count,authorships,concepts,primary_location,open_access,best_oa_location"

/-- Per-item truncation of the summary view (`searchWorks`, src/tools): keep
the first 5 authorships when more than 5 are present, and the first 3 concepts
when more than 3 are present, leaving every other field in place.  The TS
declares `authorships: Authorship[]` and `concepts: TopicScore[]`, so only
array-valued fields are truncated; any other shape leaves the item unchanged
(in JS, `work.authorships && work.authorships.length > 5` is then false or the
field is absent). -/
def summarizeWork (work : Json) : Json :=
  let work' :=
    match jsonGet work "authorships" with
    | some (.arr as) =>
        if as.length > 5 then jsonSet work "authorships" (.arr (as.take 5)) else work
    | _ => work
  match jsonGet work' "concepts" with
  | some (.arr cs) =>
      if cs.length > 3 then jsonSet work' "concepts" (.arr (cs.take 3)) else work'
  | _ => work'

/-- `{...data, results: data.results.map(summarize)}`: replace the `results`
array in place, leaving all other fields of the upstream envelope unchanged.
`none` models the `TypeError` thrown by `data.results.map` when the payload
carries no `results` array. -/
def summarizeResponse (data : Json) : Option Json :=
  match jsonGet data "results" with
  | some (.arr results) =>
      some (jsonSet data "results" (.arr (results.map summarizeWork)))
  | _ => none

/-- The parameters `searchWorks` sends upstream: in the summary branch the
rest-destructured `searchArgs` (the arguments without `view`) with `select`
forced to the curated list; in the else branch the original `args`,
`view` included. -/
def searchWorksParams (args : Args) : Args :=
  let searchArgs := args.filter (fun kv => kv.1 ≠ "view")
  if jsLookup args "view" = .str "summary" then
    setArg searchArgs "select" (.str summarySelect)
  else
    args

/-- `searchWorks` (src/tools/getEntity.ts second document): destructure
`view` out of the arguments; on `view === 'summary'` force the summary
`select`, call `/works`, truncate each result and re-wrap the envelope with
only `results` replaced; otherwise forward the original arguments to `/works`
unshaped. -/
def searchWorks (args : Args) (env : Env)
    (fetch : OutboundRequest → Except JsError Json) : Except JsError ResultEnvelope :=
  if jsLookup args "view" = .str "summary" then
    match makeOpenAlexRequest "/works" (searchWorksParams args) env fetch with
    | .error e => .error e
    | .ok data =>
        match summarizeResponse data with
        | some shaped => .ok (jsonTextResult shaped)
        | none => .error (.plain "Cannot read properties of undefined (reading 'map')")
  else
    (makeOpenAlexRequest "/works" (searchWorksParams args) env fetch).map jsonTextResult

/-- `getEntity` (src/tools/getEntity.ts): interpolate the entity type and
identifier into the path, whitelist `select` and `mailto` (when truthy) into
the parameters, and wrap the payload. -/
def getEntity (args : Args) (env : Env)
    (fetch : OutboundRequest → Except JsError Json) : Except JsError ResultEnvelope :=
  (makeOpenAlexRequest
      ("/" ++ jsString (jsLookup args "entity_type") ++ "/" ++
        jsString (jsLookup args "openalex_id"))
      ((if jsTruthy (jsLookup args "select") then [("select", jsLookup args "select")] else []) ++
        (if jsTruthy (jsLookup args "mailto") then [("mailto", jsLookup args "mailto")] else []))
      env fetch).map jsonTextResult

/-- `classifyText` (src/tools): whitelist `title`, `abstract`, `mailto` (when
truthy) into the parameters of the fixed `/text` endpoint. -/
def classifyText (args : Args) (env : Env)
    (fetch : OutboundRequest → Except JsError Json) : Except JsError ResultEnvelope :=
  (makeOpenAlexRequest "/text"
      ((if jsTruthy (jsLookup args "title") then [("title", jsLookup args "title")] else []) ++
        (if jsTruthy (jsLookup args "abstract") then [("abstract", jsLookup args "abstract")] else []) ++
        (if jsTruthy (jsLookup args "mailto") then [("mailto", jsLookup args "mailto")] else []))
      env fetch).map jsonTextResult

/-! ## `getFilterableFields` (src/tools/getFilterableFields.ts)

The purely local metadata tool: a switch over `entity_type` selecting a static
field table, serialized like every other payload; an unrecognized entity type
throws `Unknown entity_type for get_filterable_fields: <entity_type>`. -/

/-- One `{name, type, category, description}` descriptor of the static field
tables. -/
def filterField (name ty category description : String) : Json :=
  .obj [("name", .str name), ("type", .str ty),
        ("category", .str category), ("description", .str description)]

/-- The `works` field table. -/
def worksFilterFields : List Json :=
  [ filterField "authorships.author.id" "string" "attribute" "OpenAlex ID of an author.",
    filterField "authorships.author.orcid" "string" "attribute" "ORCID of an author.",
    filterField "authorships.countries" "string" "attribute" "Country codes associated with author affiliations.",
    filterField "authorships.institutions.id" "string" "attribute" "OpenAlex ID of an author\x27s institution.",
    filterField "apc_paid.value_usd" "number" "attribute" "APC paid value in USD.",
    filterField "best_oa_location.license" "string" "attribute" "License of the best OA location.",
    filterField "biblio.volume" "string" "attribute" "Volume number.",
    filterField "cited_by_count" "integer" "attribute" "Total number of times this work has been cited.",
    filterField "concepts.id" "string" "attribute" "OpenAlex ID of an associated concept/topic.",
    filterField "doi" "string" "attribute" "Digital Object Identifier of the work.",
    filterField "has_fulltext" "boolean" "attribute" "Indicates if full text is available via OpenAlex.",
    filterField "ids.openalex" "string" "attribute" "OpenAlex ID of the work.",
    filterField "ids.pmid" "string" "attribute" "PubMed ID of the work.",
    filterField "is_paratext" "boolean" "attribute" "Indicates if the work is paratext (e.g., cover, table of contents).",
    filterField "is_retracted" "boolean" "attribute" "Indicates if the work has been retracted.",
    filterField "language" "string" "attribute" "Language code of the work.",
    filterField "locations.is_oa" "boolean" "attribute" "Indicates if a specific location is Open Access.",
    filterField "open_access.is_oa" "boolean" "attribute" "Overall Open Access status of the work.",
    filterField "open_access.oa_status" "string" "attribute" "OA status (e.g., gold, green, hybrid).",
    filterField "primary_location.source.id" "string" "attribute" "OpenAlex ID of the primary hosting source.",
    filterField "publication_year" "integer" "attribute" "Year of publication.",
    filterField "publication_date" "date" "attribute" "Full publication date (YYYY-MM-DD).",
    filterField "type" "string" "attribute" "Type of the work (e.g., article, book).",
    filterField "abstract.search" "string" "convenience" "Full-text search within the work\x27s abstract.",
    filterField "authors_count" "integer" "convenience" "Number of authors for the work.",
    filterField "cited_by" "string" "convenience" "OpenAlex ID of a work that this work cites (outgoing citations).",
    filterField "cites" "string" "convenience" "OpenAlex ID of a work that cites this work (incoming citations).",
    filterField "display_name.search" "string" "convenience" "Full-text search within the work\x27s title (alias: title.search).",
    filterField "from_publication_date" "date" "convenience" "Filter for works published on or after this date.",
    filterField "to_publication_date" "date" "convenience" "Filter for works published on or before this date.",
    filterField "has_abstract" "boolean" "convenience" "Indicates if the work has an abstract.",
    filterField "has_doi" "boolean" "convenience" "Indicates if the work has a DOI." ]

/-- The `authors` field table. -/
def authorsFilterFields : List Json :=
  [ filterField "orcid" "string" "attribute" "Author\x27s ORCID iD.",
    filterField "display_name.search" "string" "convenience" "Search by author\x27s display name." ]

/-- The `sources` field table. -/
def sourcesFilterFields : List Json :=
  [ filterField "issn" "string" "attribute" "Source\x27s ISSN.",
    filterField "is_oa" "boolean" "attribute" "If the source is fully OA." ]

/-- The `institutions` field table. -/
def institutionsFilterFields : List Json :=
  [ filterField "ror" "string" "attribute" "Institution\x27s ROR ID.",
    filterField "country_code" "string" "attribute" "Institution\x27s country code." ]

/-- The `topics` field table. -/
def topicsFilterFields : List Json :=
  [ filterField "domain.id" "string" "attribute" "ID of the topic\x27s domain.",
    filterField "display_name.search" "string" "convenience" "Search by topic\x27s display name." ]

/-- The `publishers` field table. -/
def publishersFilterFields : List Json :=
  [ filterField "country_codes" "string" "attribute" "Publisher\x27s country codes.",
    filterField "display_name.search" "string" "convenience" "Search by publisher\x27s display name." ]

/-- The `funders` field table. -/
def fundersFilterFields : List Json :=
  [ filterField "country_code" "string" "attribute" "Funder\x27s country code.",
    filterField "display_name.search" "string" "convenience" "Search by funder\x27s display name." ]

/-- `getFilterableFields` (src/tools/getFilterableFields.ts): switch over the
`entity_type` argument; known entity kinds return their serialized field
table, anything else throws `Unknown entity_type for get_filterable_fields:`
followed by the value. -/
def getFilterableFields (args : Args) : Except JsError ResultEnvelope :=
  if jsLookup args "entity_type" = .str "works" then
    .ok (jsonTextResult (.arr worksFilterFields))
  else if jsLookup args "entity_type" = .str "authors" then
    .ok (jsonTextResult (.arr authorsFilterFields))
  else if jsLookup args "entity_type" = .str "sources" then
    .ok (jsonTextResult (.arr sourcesFilterFields))
  else if jsLookup args "entity_type" = .str "institutions" then
    .ok (jsonTextResult (.arr institutionsFilterFields))
  else if jsLookup args "entity_type" = .str "topics" then
    .ok (jsonTextResult (.arr topicsFilterFields))
  else if jsLookup args "entity_type" = .str "publishers" then
    .ok (jsonTextResult (.arr publishersFilterFields))
  else if jsLookup args "entity_type" = .str "funders" then
    .ok (jsonTextResult (.arr fundersFilterFields))
  else
    .error (.plain ("Unknown entity_type for get_filterable_fields: " ++
      jsString (jsLookup args "entity_type")))

/-! ## Tool Dispatcher (`CallToolRequestSchema` handler, src/index.ts) -/

/-- The names of the dispatch table, in switch order. -/
def toolNames : List String :=
  ["search_works", "search_authors", "search_sources", "search_institutions",
   "search_topics", "search_publishers", "search_funders", "get_entity",
   "autocomplete", "classify_text", "get_filterable_fields"]

/-- The body of the `try` block of the dispatcher: the switch over the tool
name; the default case throws `Unknown tool: <name>`.  Each branch invokes
the handler of the file named in its doc comment above; the six search
handlers other than `searchWorks` and the `autocomplete` handler are the
identical pass-through pattern instantiated at their endpoint. -/
def dispatchTool (name : String) (args : Args) (env : Env)
    (fetch : OutboundRequest → Except JsError Json) : Except JsError ResultEnvelope :=
  match name with
  | "search_works" => searchWorks args env fetch
  | "search_authors" => passthroughTool "/authors" args env fetch
  | "search_sources" => passthroughTool "/sources" args env fetch
  | "search_institutions" => passthroughTool "/institutions" args env fetch
  | "search_topics" => passthroughTool "/topics" args env fetch
  | "search_publishers" => passthroughTool "/publishers" args env fetch
  | "search_funders" => passthroughTool "/funders" args env fetch
  | "get_entity" => getEntity args env fetch
  | "autocomplete" => passthroughTool "/autocomplete" args env fetch
  | "classify_text" => classifyText args env fetch
  | "get_filterable_fields" => getFilterableFields args
  | _ => .error (.plain ("Unknown tool: " ++ name))

/-- The `CallToolRequestSchema` handler (src/index.ts): run the switch inside
`try`, and convert any thrown error into
`{content: [{type: "text", text: "Error: " + message}], isError: true}`.
Being a total function into `ResultEnvelope`, every invocation yields exactly
one envelope and no error value escapes. -/
def handleCallTool (name : String) (args : Args) (env : Env)
    (fetch : OutboundRequest → Except JsError Json) : ResultEnvelope :=
  match dispatchTool name args env fetch with
  | .ok envelope => envelope
  | .error e => errorResult e.message

/-! ## Helper lemmas -/

/-- The `forEach` loop of `buildQueryString` appends exactly the entries whose
values are neither `undefined` nor `null`, in order, stringified. -/
theorem searchParamsOf_eq (params : Args) :
    searchParamsOf params =
      (params.filter (fun kv => keepParam kv.2)).map (fun kv => (kv.1, jsString kv.2)) := by
  have aux : ∀ (l : Args) (acc : List (String × String)),
      l.foldl
        (fun sp kv =>
          if kv.2 = JSValue.undef ∨ kv.2 = JSValue.null then sp
          else sp ++ [(kv.1, jsString kv.2)]) acc =
      acc ++ (l.filter (fun kv => keepParam kv.2)).map (fun kv => (kv.1, jsString kv.2)) := by
    intro l
    induction l with
    | nil => intro acc; simp
    | cons kv rest ih =>
        intro acc
        obtain ⟨k, v⟩ := kv
        cases v <;> simp [keepParam, List.filter_cons, ih]
  exact aux params []

/-- A lookup that does not come out `undefined` is a binding of the mapping. -/
theorem jsLookup_mem {params : Args} {k : String} {v : JSValue}
    (h : jsLookup params k = v) (hv : v ≠ .undef) : (k, v) ∈ params := by
  induction params with
  | nil => exact absurd h.symm hv
  | cons kv rest ih =>
      obtain ⟨k', v'⟩ := kv
      by_cases hk : k' = k
      · have hv' : v' = v := by simpa [jsLookup, hk] using h
        subst hv'
        subst hk
        exact List.mem_cons_self _ _
      · have h' : jsLookup rest k = v := by simpa [jsLookup, hk] using h
        exact List.mem_cons_of_mem _ (ih h')

/-- Serializing a nonempty pair list yields a nonempty string. -/
theorem serializePairs_ne_empty {l : List (String × String)} (h : l ≠ []) :
    serializePairs l ≠ "" := by
  have hlen : 0 < (serializePairs l).length := by
    match l with
    | [kv] =>
        have h1 : "=".length = 1 := rfl
        simp only [serializePairs, String.length_append]
        omega
    | kv :: kv2 :: rest =>
        have h1 : "=".length = 1 := rfl
        simp only [serializePairs, String.length_append]
        omega
  intro he
  rw [he] at hlen
  simp at hlen

/-- After a property assignment, looking the key up yields the new value. -/
theorem lookupField_setField (f : List (String × Json)) (k : String) (v : Json) :
    lookupField (setField f k v) k = some v := by
  induction f with
  | nil => simp [setField, lookupField]
  | cons kv rest ih =>
      obtain ⟨k', v'⟩ := kv
      by_cases h : k' = k <;> simp [setField, lookupField, h, ih]

/-- A property assignment leaves every other key unchanged. -/
theorem lookupField_setField_ne (f : List (String × Json)) (k k' : String) (v : Json)
    (h : k' ≠ k) : lookupField (setField f k v) k' = lookupField f k' := by
  induction f with
  | nil =>
      have hne : ¬(k = k') := fun he => h he.symm
      simp [setField, lookupField, hne]
  | cons kv rest ih =>
      obtain ⟨k'', v''⟩ := kv
      by_cases hk : k'' = k
      · subst hk
        have hne : ¬(k'' = k') := fun he => h he.symm
        simp [setField, lookupField, hne]
      · by_cases hk' : k'' = k'
        · subst hk'
          simp [setField, lookupField, hk]
        · simp [setField, lookupField, hk, hk', ih]

/-- Every binding of `setArg l k v` either has key `k` or was in `l`. -/
theorem mem_setArg {l : Args} {k : String} {v : JSValue} {kv : String × JSValue}
    (h : kv ∈ setArg l k v) : kv.1 = k ∨ kv ∈ l := by
  induction l with
  | nil =>
      simp [setArg] at h
      subst h
      exact Or.inl rfl
  | cons kv' rest ih =>
      obtain ⟨k', v'⟩ := kv'
      by_cases hk : k' = k
      · rw [setArg, if_pos hk] at h
        rcases List.mem_cons.mp h with he | hm
        · subst he; exact Or.inl hk
        · exact Or.inr (List.mem_cons_of_mem _ hm)
      · rw [setArg, if_neg hk] at h
        rcases List.mem_cons.mp h with he | hm
        · subst he; exact Or.inr (List.mem_cons_self _ _)
        · rcases ih hm with h1 | h2
          · exact Or.inl h1
          · exact Or.inr (List.mem_cons_of_mem _ h2)

/-- Every `.ok` outcome of a pass-through handler is a serialized-payload
success envelope. -/
theorem passthroughTool_ok_shape {endpoint : String} {args : Args} {env : Env}
    {fetch : OutboundRequest → Except JsError Json} {r : ResultEnvelope}
    (h : passthroughTool endpoint args env fetch = .ok r) :
    ∃ payload, r = jsonTextResult payload := by
  unfold passthroughTool at h
  cases hm : makeOpenAlexRequest endpoint args env fetch with
  | ok data =>
      rw [hm] at h
      exact ⟨data, by simpa [Except.map] using h.symm⟩
  | error e =>
      rw [hm] at h
      simp [Except.map] at h

/-- Every `.ok` outcome of `searchWorks` is a serialized-payload success
envelope. -/
theorem searchWorks_ok_shape {args : Args} {env : Env}
    {fetch : OutboundRequest → Except JsError Json} {r : ResultEnvelope}
    (h : searchWorks args env fetch = .ok r) :
    ∃ payload, r = jsonTextResult payload := by
  unfold searchWorks at h
  split at h
  · cases hm : makeOpenAlexRequest "/works" (searchWorksParams args) env fetch with
    | ok data =>
        rw [hm] at h
        cases hs : summarizeResponse data with
        | some shaped =>
            simp only [hs] at h
            exact ⟨shaped, by simpa using h.symm⟩
        | none => simp only [hs] at h; exact absurd h (by simp)
    | error e => rw [hm] at h; simp at h
  · cases hm : makeOpenAlexRequest "/works" (searchWorksParams args) env fetch with
    | ok data =>
        rw [hm] at h
        exact ⟨data, by simpa [Except.map] using h.symm⟩
    | error e => rw [hm] at h; simp [Except.map] at h

/-- Every `.ok` outcome of `getEntity` is a serialized-payload success
envelope. -/
theorem getEntity_ok_shape {args : Args} {env : Env}
    {fetch : OutboundRequest → Except JsError Json} {r : ResultEnvelope}
    (h : getEntity args env fetch = .ok r) :
    ∃ payload, r = jsonTextResult payload := by
  unfold getEntity at h
  cases hm : makeOpenAlexRequest
      ("/" ++ jsString (jsLookup args "entity_type") ++ "/" ++
        jsString (jsLookup args "openalex_id"))
      ((if jsTruthy (jsLookup args "select") then [("select", jsLookup args "select")] else []) ++
        (if jsTruthy (jsLookup args "mailto") then [("mailto", jsLookup args "mailto")] else []))
      env fetch with
  | ok data =>
      rw [hm] at h
      exact ⟨data, by simpa [Except.map] using h.symm⟩
  | error e => rw [hm] at h; simp [Except.map] at h

/-- Every `.ok` outcome of `classifyText` is a serialized-payload success
envelope. -/
theorem classifyText_ok_shape {args : Args} {env : Env}
    {fetch : OutboundRequest → Except JsError Json} {r : ResultEnvelope}
    (h : classifyText args env fetch = .ok r) :
    ∃ payload, r = jsonTextResult payload := by
  unfold classifyText at h
  cases hm : makeOpenAlexRequest "/text"
      ((if jsTruthy (jsLookup args "title") then [("title", jsLookup args "title")] else []) ++
        (if jsTruthy (jsLookup args "abstract") then [("abstract", jsLookup args "abstract")] else []) ++
        (if jsTruthy (jsLookup args "mailto") then [("mailto", jsLookup args "mailto")] else []))
      env fetch with
  | ok data =>
      rw [hm] at h
      exact ⟨data, by simpa [Except.map] using h.symm⟩
  | error e => rw [hm] at h; simp [Except.map] at h

/-- Every `.ok` outcome of `getFilterableFields` is a serialized-payload
success envelope. -/
theorem getFilterableFields_ok_shape {args : Args} {r : ResultEnvelope}
    (h : getFilterableFields args = .ok r) :
    ∃ payload, r = jsonTextResult payload := by
  unfold getFilterableFields at h
  repeat' split at h
  all_goals
    first
      | (injection h with h'; exact ⟨_, h'.symm⟩)
      | simp at h

/-- Every `.ok` outcome of the dispatch switch is a serialized-payload
success envelope. -/
theorem dispatchTool_ok_shape {name : String} {args : Args} {env : Env}
    {fetch : OutboundRequest → Except JsError Json} {r : ResultEnvelope}
    (h : dispatchTool name args env fetch = .ok r) :
    ∃ payload, r = jsonTextResult payload := by
  unfold dispatchTool at h
  split at h
  · exact searchWorks_ok_shape h
  · exact passthroughTool_ok_shape h
  · exact passthroughTool_ok_shape h
  · exact passthroughTool_ok_shape h
  · exact passthroughTool_ok_shape h
  · exact passthroughTool_ok_shape h
  · exact passthroughTool_ok_shape h
  · exact getEntity_ok_shape h
  · exact passthroughTool_ok_shape h
  · exact classifyText_ok_shape h
  · exact getFilterableFields_ok_shape h
  · simp at h

/-- A name outside the dispatch table reaches the default case of the switch. -/
theorem dispatchTool_unknown {name : String} (args : Args) (env : Env)
    (fetch : OutboundRequest → Except JsError Json) (h : name ∉ toolNames) :
    dispatchTool name args env fetch = .error (.plain ("Unknown tool: " ++ name)) := by
  unfold dispatchTool
  split <;> simp_all [toolNames]

/-! ## Claims -/

/-- **C1** (dispatcher total coverage): for every inbound tool invocation —
any tool name, any argument mapping, any process environment and any upstream
outcome — the dispatcher returns exactly one `ResultEnvelope`
(`handleCallTool` is a total function into `ResultEnvelope`, so no error
value escapes the boundary): on success
`{content: [{type: "text", text: JSON.stringify(payload, null, 2)}]}`, and on
any failure from any layer
`{content: [{type: "text", text: "Error: " + message}], isError: true}`. -/
theorem dispatcherEnvelope_spec (name : String) (args : Args) (env : Env)
    (fetch : OutboundRequest → Except JsError Json) :
    (∃ payload, handleCallTool name args env fetch = jsonTextResult payload) ∨
    (∃ msg, handleCallTool name args env fetch = errorResult msg) := by
  cases hd : dispatchTool name args env fetch with
  | ok envl =>
      obtain ⟨p, hp⟩ := dispatchTool_ok_shape hd
      exact Or.inl ⟨p, by simp only [handleCallTool, hd, hp]⟩
  | error e =>
      exact Or.inr ⟨e.message, by simp only [handleCallTool, hd]⟩

/-- **C2** (unknown tool): invoking any name absent from the dispatch table
returns (does not throw) an `isError` envelope whose text contains the word
"Unknown" and the invoked tool name; the process survives, as the result is a
returned envelope, not an escaping error. -/
theorem unknownTool_spec (name : String) (args : Args) (env : Env)
    (fetch : OutboundRequest → Except JsError Json) (h : name ∉ toolNames) :
    handleCallTool name args env fetch = errorResult ("Unknown tool: " ++ name) ∧
    (handleCallTool name args env fetch).isError = true ∧
    (handleCallTool name args env fetch).content =
      [{ type := "text", text := ("Error: " ++ "Unknown") ++ (" tool: " ++ name) }] := by
  have hmain : handleCallTool name args env fetch = errorResult ("Unknown tool: " ++ name) := by
    simp only [handleCallTool, dispatchTool_unknown args env fetch h, JsError.message]
  refine ⟨hmain, by rw [hmain]; rfl, ?_⟩
  rw [hmain]
  show [({ type := "text", text := "Error: " ++ ("Unknown tool: " ++ name) } : TextContent)] = _
  have : "Error: " ++ ("Unknown tool: " ++ name) = ("Error: " ++ "Unknown") ++ (" tool: " ++ name) := by
    rw [← String.append_assoc, ← String.append_assoc]
    rfl
  rw [this]

/-- Witness for C2: the concrete name `does_not_exist` yields the handled
Unknown-tool error envelope. -/
theorem unknownTool_witness :
    "does_not_exist" ∉ toolNames ∧
    handleCallTool "does_not_exist" [] ⟨none, none⟩ (fun _ => .ok .null) =
      errorResult ("Unknown tool: " ++ "does_not_exist") :=
  ⟨by decide,
   (unknownTool_spec "does_not_exist" [] ⟨none, none⟩ (fun _ => .ok .null) (by decide)).1⟩

set_option maxRecDepth 4096 in
/-- No byte serialization of the form encoder contains a raw `&` or `=`. -/
theorem formEncodeByte_safe : ∀ n < 256, ∀ c ∈ (formEncodeByte n).data, c ≠ '&' ∧ c ≠ '=' := by
  decide

/-- Every Unicode code point is below `0x110000`. -/
theorem char_toNat_lt (c : Char) : c.toNat < 1114112 := by
  rcases c.valid with h | ⟨h1, h2⟩
  · exact Nat.lt_trans h (by decide)
  · exact h2

/-- UTF-8 encoding of a code point produces bytes. -/
theorem utf8Bytes_lt_256 {n : Nat} (hn : n < 1114112) : ∀ b ∈ utf8Bytes n, b < 256 := by
  unfold utf8Bytes
  split
  · intro b hb
    simp only [List.mem_singleton] at hb
    omega
  · split
    · intro b hb
      simp only [List.mem_cons, List.not_mem_nil, or_false] at hb
      rcases hb with hb | hb <;> omega
    · split
      · intro b hb
        simp only [List.mem_cons, List.not_mem_nil, or_false] at hb
        rcases hb with hb | hb | hb <;> omega
      · intro b hb
        simp only [List.mem_cons, List.not_mem_nil, or_false] at hb
        rcases hb with hb | hb | hb | hb <;> omega

/-- The character list of a joined string is the join of the pieces. -/
theorem join_data (l : List String) : (String.join l).data = (l.map String.data).flatten := by
  have aux : ∀ (l : List String) (acc : String),
      (l.foldl (· ++ ·) acc).data = acc.data ++ (l.map String.data).flatten := by
    intro l
    induction l with
    | nil => intro acc; simp
    | cons s rest ih =>
        intro acc
        simp [ih, List.append_assoc]
  simpa [String.join] using aux l ""

/-- No raw `&` or `=` survives form encoding. -/
theorem formEncode_safe (s : String) : ∀ c ∈ (formEncode s).data, c ≠ '&' ∧ c ≠ '=' := by
  intro c hc
  unfold formEncode at hc
  rw [join_data] at hc
  obtain ⟨piece, hpiece, hcp⟩ := List.mem_flatten.mp hc
  obtain ⟨chunk, hchunk, hpc⟩ := List.mem_map.mp hpiece
  obtain ⟨ch, hch, hcc⟩ := List.mem_map.mp hchunk
  subst hpc
  subst hcc
  rw [join_data] at hcp
  obtain ⟨piece2, hpiece2, hcp2⟩ := List.mem_flatten.mp hcp
  obtain ⟨bs, hbs, hbp⟩ := List.mem_map.mp hpiece2
  obtain ⟨b, hb, hbb⟩ := List.mem_map.mp hbs
  subst hbp
  subst hbb
  exact formEncodeByte_safe b (utf8Bytes_lt_256 (char_toNat_lt ch) b hb) c hcp2

/-- **C3** (query encoding): the Query Encoder emits exactly one
form-encoded `key=value` pair, in order, for each entry whose value is
neither absent (`undefined`) nor `null` and omits all the others (conjunct 1,
with conjunct 2 guaranteeing the pairs contain no raw `&` or `=`); an empty
or all-null mapping yields the empty query string, in which case the
outbound URL is exactly base + endpoint and contains no `?` separator
(conjuncts 3 and 4). -/
theorem queryEncoder_spec (params : Args) (endpoint : String) (env : Env) :
    buildQueryString params =
      serializePairs
        ((params.filter (fun kv => keepParam kv.2)).map (fun kv => (kv.1, jsString kv.2))) ∧
    (∀ s : String, ∀ c ∈ (formEncode s).data, c ≠ '&' ∧ c ≠ '=') ∧
    ((∀ kv ∈ params, keepParam kv.2 = false) →
      buildQueryString params = "" ∧
      (buildOutboundRequest endpoint params env).url = OPENALEX_BASE_URL ++ endpoint) ∧
    ((∀ kv ∈ params, keepParam kv.2 = false) → '?' ∉ endpoint.data →
      '?' ∉ ((buildOutboundRequest endpoint params env).url).data) := by
  have hchar : buildQueryString params =
      serializePairs
        ((params.filter (fun kv => keepParam kv.2)).map (fun kv => (kv.1, jsString kv.2))) := by
    unfold buildQueryString
    rw [searchParamsOf_eq]
  have hempty : (∀ kv ∈ params, keepParam kv.2 = false) → buildQueryString params = "" := by
    intro hall
    rw [hchar]
    have : params.filter (fun kv => keepParam kv.2) = [] := by
      rw [List.filter_eq_nil_iff]
      intro kv hkv
      simp [hall kv hkv]
    rw [this]
    rfl
  have hurl : (∀ kv ∈ params, keepParam kv.2 = false) →
      (buildOutboundRequest endpoint params env).url = OPENALEX_BASE_URL ++ endpoint := by
    intro hall
    unfold buildOutboundRequest
    rw [hempty hall]
    simp
  refine ⟨hchar, formEncode_safe, fun hall => ⟨hempty hall, hurl hall⟩, ?_⟩
  intro hall hq
  rw [hurl hall]
  rw [String.data_append]
  intro hmem
  rcases List.mem_append.mp hmem with hbase | hend
  · exact absurd hbase (by decide)
  · exact hq hend

/-- Witness for C3: a mapping holding only a `null` value yields the empty
query string and a `?`-free outbound URL. -/
theorem queryEncoder_witness :
    buildQueryString [("cursor", JSValue.null)] = "" ∧
    (buildOutboundRequest "/works" [("cursor", JSValue.null)] ⟨none, none⟩).url =
      OPENALEX_BASE_URL ++ "/works" ∧
    '?' ∉ ((buildOutboundRequest "/works" [("cursor", JSValue.null)] ⟨none, none⟩).url).data := by
  have h := queryEncoder_spec [("cursor", JSValue.null)] "/works" ⟨none, none⟩
  exact ⟨(h.2.2.1 (by decide)).1, (h.2.2.1 (by decide)).2, h.2.2.2 (by decide) (by decide)⟩

/-- **C4** (credential precedence): the Authorization header is present
exactly when a bearer token resolves, and then reads `Bearer ` followed by
the resolved token (conjunct 1); a truthy per-call `bearer_token` wins over
any environment default (conjunct 2); with no truthy per-call token, a
non-empty environment default is used (conjunct 3); with neither, no
Authorization header is attached (conjunct 4). -/
theorem authorizationHeader_spec (params : Args) (env : Env) :
    lookupHeader (buildHeaders params env) "Authorization" =
      (resolveBearer params env).map (fun t => "Bearer " ++ t) ∧
    (∀ t : String, jsLookup params "bearer_token" = .str t → t ≠ "" →
      lookupHeader (buildHeaders params env) "Authorization" = some ("Bearer " ++ t)) ∧
    (jsTruthy (jsLookup params "bearer_token") = false →
      ∀ e : String, env.bearerToken = some e → e ≠ "" →
      lookupHeader (buildHeaders params env) "Authorization" = some ("Bearer " ++ e)) ∧
    (jsTruthy (jsLookup params "bearer_token") = false →
      (env.bearerToken = none ∨ env.bearerToken = some "") →
      lookupHeader (buildHeaders params env) "Authorization" = none) := by
  have h1 : lookupHeader (buildHeaders params env) "Authorization" =
      (resolveBearer params env).map (fun t => "Bearer " ++ t) := by
    cases hr : resolveBearer params env <;> simp [buildHeaders, lookupHeader, hr]
  refine ⟨h1, ?_, ?_, ?_⟩
  · intro t ht hne
    rw [h1]
    unfold resolveBearer
    rw [ht]
    simp [jsTruthy, jsString, hne]
  · intro hf e he hne
    rw [h1]
    unfold resolveBearer
    rw [hf, he]
    simp [hne]
  · intro hf hnone
    rw [h1]
    unfold resolveBearer
    rw [hf]
    rcases hnone with h | h <;> simp [h]

/-- Witness for C4: a per-call token beats the environment default; the
environment default is used when no per-call token is given; with neither, no
Authorization header exists. -/
theorem authorizationHeader_witness :
    lookupHeader
        (buildHeaders [("bearer_token", JSValue.str "per-call-token")]
          ⟨none, some "env-token"⟩) "Authorization" = some ("Bearer " ++ "per-call-token") ∧
    lookupHeader (buildHeaders [] ⟨none, some "env-token"⟩) "Authorization" =
      some ("Bearer " ++ "env-token") ∧
    lookupHeader (buildHeaders [] ⟨none, none⟩) "Authorization" = none := by
  refine ⟨?_, ?_, ?_⟩
  · exact (authorizationHeader_spec [("bearer_token", JSValue.str "per-call-token")]
      ⟨none, some "env-token"⟩).2.1 "per-call-token" (by decide) (by decide)
  · exact (authorizationHeader_spec [] ⟨none, some "env-token"⟩).2.2.1 (by decide)
      "env-token" rfl (by decide)
  · exact (authorizationHeader_spec [] ⟨none, none⟩).2.2.2 (by decide) (Or.inl rfl)

/-- **C5** (identification fallback order): the User-Agent header is the
fixed product identifier followed by ` mailto:<email>` (conjunct 1 ties the
header to `userAgent`, conjuncts 2–4 fix the email): a non-empty `mailto`
parameter wins regardless of the environment (conjunct 2); otherwise a
non-empty environment default is used (conjunct 3); otherwise the literal
placeholder `mcp-server@example.com` (conjunct 4). -/
theorem userAgentHeader_spec (params : Args) (env : Env) :
    lookupHeader (buildHeaders params env) "User-Agent" = some (userAgent params env) ∧
    (∀ m : String, jsLookup params "mailto" = .str m → m ≠ "" →
      userAgent params env = productIdentifier ++ " mailto:" ++ m) ∧
    (jsTruthy (jsLookup params "mailto") = false →
      ∀ d : String, env.defaultEmail = some d → d ≠ "" →
      userAgent params env = productIdentifier ++ " mailto:" ++ d) ∧
    (jsTruthy (jsLookup params "mailto") = false →
      (env.defaultEmail = none ∨ env.defaultEmail = some "") →
      userAgent params env = productIdentifier ++ " mailto:" ++ "mcp-server@example.com") := by
  refine ⟨?_, ?_, ?_, ?_⟩
  · cases hr : resolveBearer params env <;> simp [buildHeaders, lookupHeader, hr]
  · intro m hm hne
    unfold userAgent
    rw [hm]
    simp [jsTruthy, jsString, hne]
  · intro hf d hd hne
    unfold userAgent
    rw [hf, hd]
    simp [hne]
  · intro hf hnone
    unfold userAgent
    rw [hf]
    rcases hnone with h | h <;> simp [h]

/-- Witness for C5: an explicit `mailto` wins over the environment default;
the environment default is used when `mailto` is unset; the placeholder is
used when both are missing. -/
theorem userAgentHeader_witness :
    userAgent [("mailto", JSValue.str "user@example.org")] ⟨some "default@example.org", none⟩ =
      productIdentifier ++ " mailto:" ++ "user@example.org" ∧
    userAgent [] ⟨some "default@example.org", none⟩ =
      productIdentifier ++ " mailto:" ++ "default@example.org" ∧
    userAgent [] ⟨none, none⟩ = productIdentifier ++ " mailto:" ++ "mcp-server@example.com" := by
  refine ⟨?_, ?_, ?_⟩
  · exact (userAgentHeader_spec [("mailto", JSValue.str "user@example.org")]
      ⟨some "default@example.org", none⟩).2.1 "user@example.org" (by decide) (by decide)
  · exact (userAgentHeader_spec [] ⟨some "default@example.org", none⟩).2.2.1 (by decide)
      "default@example.org" rfl (by decide)
  · exact (userAgentHeader_spec [] ⟨none, none⟩).2.2.2 (by decide) (Or.inl rfl)

/-- **C6** (HTTP error normalization): an upstream failure carrying an HTTP
status and a non-empty status text is rethrown as
`OpenAlex API error: <status> - <status text>` (conjunct 1; when the status
text is empty the underlying message is used instead, conjunct 2), and in
particular a 404 with status text `Not Found` surfaces through the dispatcher
as an error envelope whose text is
`Error: OpenAlex API error: 404 - Not Found` (conjunct 3, stated for
`search_works`, whose branches both route the failure through the adapter). -/
theorem httpErrorNormalization_spec (status : Nat) (statusText msg : String) :
    (statusText ≠ "" →
      handleRequestError (.axios (some ⟨status, statusText⟩) msg) =
        .plain ("OpenAlex API error: " ++ toString status ++ " - " ++ statusText)) ∧
    (statusText = "" →
      handleRequestError (.axios (some ⟨status, statusText⟩) msg) =
        .plain ("OpenAlex API error: " ++ toString status ++ " - " ++ msg)) ∧
    (∀ (args : Args) (env : Env),
      handleCallTool "search_works" args env
          (fun _ => .error (.axios (some ⟨404, "Not Found"⟩) msg)) =
        errorResult "OpenAlex API error: 404 - Not Found") := by
  refine ⟨?_, ?_, ?_⟩
  · intro hne
    simp [handleRequestError, hne]
  · intro he
    simp [handleRequestError, he]
  · intro args env
    have he : handleRequestError (.axios (some ⟨404, "Not Found"⟩) msg) =
        .plain "OpenAlex API error: 404 - Not Found" := by
      simp [handleRequestError]
      decide
    have hm : ∀ p : Args, makeOpenAlexRequest "/works" p env
        (fun _ => .error (.axios (some ⟨404, "Not Found"⟩) msg)) =
        .error (.plain "OpenAlex API error: 404 - Not Found") := by
      intro p
      simp [makeOpenAlexRequest, he]
    have hsw : searchWorks args env
        (fun _ => .error (.axios (some ⟨404, "Not Found"⟩) msg)) =
        .error (.plain "OpenAlex API error: 404 - Not Found") := by
      unfold searchWorks
      split
      · rw [hm (searchWorksParams args)]
      · rw [hm (searchWorksParams args)]
        rfl
    have hd : dispatchTool "search_works" args env
        (fun _ => .error (.axios (some ⟨404, "Not Found"⟩) msg)) =
        searchWorks args env (fun _ => .error (.axios (some ⟨404, "Not Found"⟩) msg)) := rfl
    unfold handleCallTool
    rw [hd, hsw]
    rfl

/-- Witness for C6: at status 404, status text `Not Found` and an arbitrary
underlying message, the adapter produces the normalized error and the
dispatcher the matching envelope. -/
theorem httpErrorNormalization_witness :
    handleRequestError (.axios (some ⟨404, "Not Found"⟩) "Request failed with status code 404") =
      .plain ("OpenAlex API error: " ++ toString 404 ++ " - " ++ "Not Found") ∧
    handleCallTool "search_works" [] ⟨none, none⟩
        (fun _ => .error (.axios (some ⟨404, "Not Found"⟩) "Request failed with status code 404")) =
      errorResult "OpenAlex API error: 404 - Not Found" := by
  refine ⟨?_, ?_⟩
  · exact (httpErrorNormalization_spec 404 "Not Found"
      "Request failed with status code 404").1 (by decide)
  · exact (httpErrorNormalization_spec 404 "Not Found"
      "Request failed with status code 404").2.2 [] ⟨none, none⟩

/-- **C7 counterexample**: a network-level timeout is an axios error carrying
no HTTP status (`response` is absent), yet the adapter catch block does *not*
propagate it unchanged — `axios.isAxiosError` is true for it, so it is
replaced by a new error whose message is
`OpenAlex API error: undefined - timeout of 30000ms exceeded`. -/
theorem transportFailure_counterexample :
    handleRequestError (.axios none "timeout of 30000ms exceeded") ≠
      .axios none "timeout of 30000ms exceeded" ∧
    (handleRequestError (.axios none "timeout of 30000ms exceeded")).message ≠
      "timeout of 30000ms exceeded" ∧
    handleRequestError (.axios none "timeout of 30000ms exceeded") =
      .plain "OpenAlex API error: undefined - timeout of 30000ms exceeded" := by
  refine ⟨by decide, by decide, by decide⟩

/-- **C7 amended**: only failures not raised by the HTTP client (non-axios
errors) are propagated unchanged to the Dispatcher boundary and surfaced as
an error envelope with the underlying message (conjuncts 1 and 3); an
HTTP-client failure that carries no HTTP response — network failure, timeout,
DNS — is instead normalized like an HTTP error, with the status rendered as
the string `undefined`: `OpenAlex API error: undefined - <message>`
(conjunct 2). -/
theorem transportFailure_amended (m : String) :
    handleRequestError (.plain m) = .plain m ∧
    handleRequestError (.axios none m) =
      .plain ("OpenAlex API error: " ++ "undefined" ++ " - " ++ m) ∧
    (∀ (args : Args) (env : Env),
      handleCallTool "search_authors" args env (fun _ => .error (.plain m)) =
        errorResult m) := by
  refine ⟨rfl, by simp [handleRequestError], ?_⟩
  intro args env
  have hd : dispatchTool "search_authors" args env (fun _ => .error (.plain m)) =
      passthroughTool "/authors" args env (fun _ => .error (.plain m)) := rfl
  have hp : passthroughTool "/authors" args env (fun _ => .error (.plain m)) =
      .error (.plain m) := by
    simp [passthroughTool, makeOpenAlexRequest, handleRequestError, Except.map]
  unfold handleCallTool
  rw [hd, hp]
  rfl

/-- **C9 counterexample**: with `view = "full"` the else branch of
`searchWorks` passes the *original* arguments (not the rest-destructured
`searchArgs`) to the request builder, so the outbound URL carries
`view=full`.  The fetch oracle here returns its own request URL as an error
message, so the envelope exhibits the URL the handler actually requested;
the second conjunct shows the query string the arguments encode to. -/
theorem viewStripping_counterexample :
    handleCallTool "search_works" [("view", JSValue.str "full")] ⟨none, none⟩
        (fun req => .error (.plain req.url)) =
      errorResult "https://api.openalex.org/works?view=full" ∧
    buildQueryString [("view", JSValue.str "full")] = "view=full" := by
  refine ⟨by decide, by decide⟩

/-- **C9 amended**: the `view` key is stripped from the arguments before
query encoding only in the summary branch: when `view = "summary"`, no
parameter sent upstream has key `view` (conjunct 1); for any other `view`
value — `"full"`, absent, or anything else — `searchWorks` forwards the
original argument mapping unmodified, so a present `view` entry is encoded
into the outbound query string like any other parameter (conjunct 2). -/
theorem viewStripping_amended (args : Args) :
    (jsLookup args "view" = .str "summary" →
      ∀ kv ∈ searchWorksParams args, kv.1 ≠ "view") ∧
    (jsLookup args "view" ≠ .str "summary" → searchWorksParams args = args) := by
  constructor
  · intro hview kv hkv
    unfold searchWorksParams at hkv
    rw [if_pos hview] at hkv
    rcases mem_setArg hkv with hsel | hmem
    · rw [hsel]
      decide
    · have := (List.mem_filter.mp hmem).2
      simpa using this
  · intro hview
    unfold searchWorksParams
    rw [if_neg hview]

/-- Witness for C9 amended: with `view = "summary"` every outbound parameter
key differs from `view`; with `view = "full"` the arguments pass through
unmodified. -/
theorem viewStripping_witness :
    (∀ kv ∈ searchWorksParams [("view", JSValue.str "summary"), ("search", JSValue.str "ai")],
      kv.1 ≠ "view") ∧
    searchWorksParams [("view", JSValue.str "full"), ("search", JSValue.str "ai")] =
      [("view", JSValue.str "full"), ("search", JSValue.str "ai")] := by
  refine ⟨?_, ?_⟩
  · exact (viewStripping_amended
      [("view", JSValue.str "summary"), ("search", JSValue.str "ai")]).1 (by decide)
  · exact (viewStripping_amended
      [("view", JSValue.str "full"), ("search", JSValue.str "ai")]).2 (by decide)

/-- **C10** (credential in URL): `buildQueryString` removes no credential
fields, so when the arguments bind `bearer_token` to a string, the
`URLSearchParams` of the request contains the `bearer_token` entry
(conjunct 1), the query string is nonempty (conjunct 2), the outbound URL is
base + endpoint + `?` + that query string (conjunct 3), and — for a truthy
token — the same token additionally rides in the Authorization header
(conjunct 4). -/
theorem bearerTokenInQuery_spec (endpoint : String) (args : Args) (env : Env)
    (t : String) (h : jsLookup args "bearer_token" = .str t) :
    ("bearer_token", t) ∈ searchParamsOf args ∧
    buildQueryString args ≠ "" ∧
    (buildOutboundRequest endpoint args env).url =
      OPENALEX_BASE_URL ++ endpoint ++ ("?" ++ buildQueryString args) ∧
    (t ≠ "" →
      lookupHeader ((buildOutboundRequest endpoint args env).headers) "Authorization" =
        some ("Bearer " ++ t)) := by
  have hmem : ("bearer_token", JSValue.str t) ∈ args :=
    jsLookup_mem h (by simp)
  have hpair : ("bearer_token", t) ∈ searchParamsOf args := by
    rw [searchParamsOf_eq]
    refine List.mem_map.mpr ⟨("bearer_token", JSValue.str t), ?_, rfl⟩
    exact List.mem_filter.mpr ⟨hmem, rfl⟩
  have hne : buildQueryString args ≠ "" := by
    unfold buildQueryString
    exact serializePairs_ne_empty (List.ne_nil_of_mem hpair)
  refine ⟨hpair, hne, ?_, ?_⟩
  · unfold buildOutboundRequest
    simp [hne]
  · intro ht
    simp [buildOutboundRequest, buildHeaders, lookupHeader, resolveBearer, h,
      jsTruthy, jsString, ht]

/-- Witness for C10: a concrete invocation with `bearer_token = "secret"`
puts `bearer_token=secret` into the outbound URL and `Bearer secret` into the
Authorization header. -/
theorem bearerTokenInQuery_witness :
    ("bearer_token", "secret") ∈
      searchParamsOf [("search", JSValue.str "ai"), ("bearer_token", JSValue.str "secret")] ∧
    (buildOutboundRequest "/works"
        [("search", JSValue.str "ai"), ("bearer_token", JSValue.str "secret")]
        ⟨none, none⟩).url =
      OPENALEX_BASE_URL ++ "/works" ++
        ("?" ++ buildQueryString [("search", JSValue.str "ai"), ("bearer_token", JSValue.str "secret")]) ∧
    lookupHeader
        ((buildOutboundRequest "/works"
            [("search", JSValue.str "ai"), ("bearer_token", JSValue.str "secret")]
            ⟨none, none⟩).headers) "Authorization" = some ("Bearer " ++ "secret") := by
  have h := bearerTokenInQuery_spec "/works"
    [("search", JSValue.str "ai"), ("bearer_token", JSValue.str "secret")]
    ⟨none, none⟩ "secret" (by decide)
  exact ⟨h.1, h.2.2.1, h.2.2.2 (by decide)⟩

/-- Re-assigning the value a key already holds leaves the object unchanged. -/
theorem setField_self {f : List (String × Json)} {k : String} {v : Json}
    (h : lookupField f k = some v) : setField f k v = f := by
  induction f with
  | nil => simp [lookupField] at h
  | cons kv rest ih =>
      obtain ⟨k', v'⟩ := kv
      by_cases hk : k' = k
      · have hv : v' = v := by
          have h2 := h
          simp [lookupField, hk] at h2
          exact h2
        subst hv
        simp [setField, hk]
      · have h' : lookupField rest k = some v := by simpa [lookupField, hk] using h
        simp [setField, hk, ih h']

/-- Closed form of the per-item summary truncation on a work that carries
array-valued `authorships` and `concepts`: the result replaces the two lists
by their 5- and 3-element prefixes (the replacement is the identity when the
list is already within its cap). -/
theorem summarizeWork_eq (f : List (String × Json)) (as cs : List Json)
    (ha : lookupField f "authorships" = some (.arr as))
    (hc : lookupField f "concepts" = some (.arr cs)) :
    summarizeWork (.obj f) =
      .obj (setField (setField f "authorships" (.arr (as.take 5)))
        "concepts" (.arr (cs.take 3))) := by
  have ha' : jsonGet (Json.obj f) "authorships" = some (.arr as) := ha
  unfold summarizeWork
  simp only [ha']
  by_cases h5 : as.length > 5
  · simp only [if_pos h5]
    have hc1 : jsonGet (jsonSet (Json.obj f) "authorships" (Json.arr (as.take 5)))
        "concepts" = some (.arr cs) := by
      show lookupField (setField f "authorships" (Json.arr (as.take 5))) "concepts" = _
      rw [lookupField_setField_ne _ _ _ _ (by decide)]
      exact hc
    simp only [hc1]
    by_cases h3 : cs.length > 3
    · simp only [if_pos h3]
      rfl
    · simp only [if_neg h3]
      have hc1' : lookupField (setField f "authorships" (Json.arr (as.take 5)))
          "concepts" = some (.arr cs) := hc1
      rw [List.take_of_length_le (Nat.le_of_not_lt h3), setField_self hc1']
      rfl
  · simp only [if_neg h5]
    have hc' : jsonGet (Json.obj f) "concepts" = some (.arr cs) := hc
    simp only [hc']
    have hsf : setField f "authorships" (Json.arr (as.take 5)) = f := by
      rw [List.take_of_length_le (Nat.le_of_not_lt h5)]
      exact setField_self ha
    by_cases h3 : cs.length > 3
    · simp only [if_pos h3]
      rw [hsf]
      rfl
    · simp only [if_neg h3]
      rw [hsf, List.take_of_length_le (Nat.le_of_not_lt h3), setField_self hc]

/-- **C8** (summary projection): on a payload whose `results` field is an
array, the Response Shaper replaces only `results` — by the item-wise
truncation — and keeps every other field (meta, counts, cursors) unchanged
(conjuncts 1–3); on each item carrying `authorships` and `concepts` arrays,
the truncation keeps exactly the first 5 authorships and first 3 concepts in
original order with no re-sorting, touches no other field, and is the
identity on items already within both caps (conjunct 4). -/
theorem summaryProjection_spec (fields : List (String × Json)) (results : List Json)
    (hres : jsonGet (.obj fields) "results" = some (.arr results)) :
    summarizeResponse (.obj fields) =
      some (.obj (setField fields "results" (.arr (results.map summarizeWork)))) ∧
    (∀ k, k ≠ "results" →
      jsonGet (.obj (setField fields "results" (.arr (results.map summarizeWork)))) k =
        jsonGet (.obj fields) k) ∧
    jsonGet (.obj (setField fields "results" (.arr (results.map summarizeWork)))) "results" =
      some (.arr (results.map summarizeWork)) ∧
    (∀ (f : List (String × Json)) (as cs : List Json),
      jsonGet (.obj f) "authorships" = some (.arr as) →
      jsonGet (.obj f) "concepts" = some (.arr cs) →
      summarizeWork (.obj f) =
        .obj (setField (setField f "authorships" (.arr (as.take 5)))
          "concepts" (.arr (cs.take 3))) ∧
      jsonGet (summarizeWork (.obj f)) "authorships" = some (.arr (as.take 5)) ∧
      jsonGet (summarizeWork (.obj f)) "concepts" = some (.arr (cs.take 3)) ∧
      (∀ k, k ≠ "authorships" → k ≠ "concepts" →
        jsonGet (summarizeWork (.obj f)) k = jsonGet (.obj f) k) ∧
      (as.length ≤ 5 → cs.length ≤ 3 → summarizeWork (.obj f) = .obj f)) := by
  refine ⟨?_, ?_, ?_, ?_⟩
  · unfold summarizeResponse
    rw [hres]
    rfl
  · intro k hk
    show lookupField (setField fields "results" (Json.arr (results.map summarizeWork))) k = _
    exact lookupField_setField_ne _ _ _ _ hk
  · exact lookupField_setField _ _ _
  · intro f as cs ha hc
    have heq := summarizeWork_eq f as cs ha hc
    refine ⟨heq, ?_, ?_, ?_, ?_⟩
    · rw [heq]
      show lookupField (setField (setField f "authorships" (Json.arr (as.take 5)))
        "concepts" (Json.arr (cs.take 3))) "authorships" = _
      rw [lookupField_setField_ne _ _ _ _ (by decide)]
      exact lookupField_setField _ _ _
    · rw [heq]
      exact lookupField_setField _ _ _
    · intro k hka hkc
      rw [heq]
      show lookupField (setField (setField f "authorships" (Json.arr (as.take 5)))
        "concepts" (Json.arr (cs.take 3))) k = lookupField f k
      rw [lookupField_setField_ne _ _ _ _ hkc, lookupField_setField_ne _ _ _ _ hka]
    · intro h5 h3
      rw [heq, List.take_of_length_le h5, List.take_of_length_le h3]
      rw [setField_self ha]
      rw [setField_self hc]

/-- Witness for C8: the shaper leaves a 2-authorship, 1-concept item (and the
surrounding envelope) untouched, and cuts an 8-authorship, 5-concept item to
its first 5 and first 3 entries. -/
theorem summaryProjection_witness :
    summarizeResponse
        (.obj [("meta", .obj [("count", .num 42)]),
               ("results", .arr [.obj [("authorships", .arr [.num 1, .num 2]),
                                       ("concepts", .arr [.num 1])]])]) =
      some (.obj [("meta", .obj [("count", .num 42)]),
                  ("results", .arr [.obj [("authorships", .arr [.num 1, .num 2]),
                                          ("concepts", .arr [.num 1])]])]) ∧
    summarizeWork
        (.obj [("id", .str "W1"),
               ("authorships", .arr [.num 1, .num 2, .num 3, .num 4, .num 5, .num 6, .num 7, .num 8]),
               ("concepts", .arr [.num 1, .num 2, .num 3, .num 4, .num 5])]) =
      .obj [("id", .str "W1"),
            ("authorships", .arr [.num 1, .num 2, .num 3, .num 4, .num 5]),
            ("concepts", .arr [.num 1, .num 2, .num 3])] := by
  constructor
  · have h := summaryProjection_spec
      [("meta", .obj [("count", .num 42)]),
       ("results", .arr [.obj [("authorships", .arr [.num 1, .num 2]),
                               ("concepts", .arr [.num 1])]])]
      [.obj [("authorships", .arr [.num 1, .num 2]), ("concepts", .arr [.num 1])]]
      (by simp [jsonGet, lookupField])
    have hsmall := (h.2.2.2
      [("authorships", .arr [.num 1, .num 2]), ("concepts", .arr [.num 1])]
      [.num 1, .num 2] [.num 1]
      (by simp [jsonGet, lookupField]) (by simp [jsonGet, lookupField])).2.2.2.2
      (by simp) (by simp)
    rw [h.1]
    simp only [List.map_cons, List.map_nil]
    rw [hsmall]
    simp [setField]
  · have h := summaryProjection_spec [("results", .arr [])] []
      (by simp [jsonGet, lookupField])
    have hbig := (h.2.2.2
      [("id", .str "W1"),
       ("authorships", .arr [.num 1, .num 2, .num 3, .num 4, .num 5, .num 6, .num 7, .num 8]),
       ("concepts", .arr [.num 1, .num 2, .num 3, .num 4, .num 5])]
      [.num 1, .num 2, .num 3, .num 4, .num 5, .num 6, .num 7, .num 8]
      [.num 1, .num 2, .num 3, .num 4, .num 5]
      (by simp [jsonGet, lookupField]) (by simp [jsonGet, lookupField])).1
    rw [hbig]
    simp [setField]

end OpenAlexMCP
